import Mathlib

/-!
Verification of `app/codex.py` (codex-exec-proxy): a shallow embedding of the
subprocess-orchestration and output-sanitisation core, followed by theorems
about its claims.  Text is modelled as `List Char`; effectful sub-operations
(filesystem probes, path canonicalisation, process events) are modelled as
explicit parameters or event scripts.
-/

set_option maxRecDepth 4000

namespace CodexProxy

/-- Characters Python's `str` methods treat as stripped whitespace (ASCII
whitespace plus the common one-byte extras; exotic Unicode space classes do
not occur in the transcripts this program handles). -/
def pySpaceChars : List Char :=
  [' ', '\t', '\n', '\r', '\x0b', '\x0c',
   '\x1c', '\x1d', '\x1e', '\x1f', '\x85', '\xa0']

def isPySpace (c : Char) : Bool := pySpaceChars.contains c

/-- Python `str.strip()`. -/
def pyStrip (cs : List Char) : List Char :=
  ((cs.dropWhile isPySpace).reverse.dropWhile isPySpace).reverse

/-- Python `str.rstrip(set)`: drop trailing characters belonging to `set`. -/
def pyRstripSet (cs : List Char) (set : List Char) : List Char :=
  (cs.reverse.dropWhile (fun c => set.contains c)).reverse

/-- Python `str.lower()` restricted to ASCII letters (the only letters the
filter's marker strings contain). -/
def pyLower (cs : List Char) : List Char := cs.map Char.toLower

/-- Characters Python's `str.splitlines` splits on. -/
def isPyLineBreak (c : Char) : Bool :=
  ['\n', '\r', '\x0b', '\x0c', '\x1c', '\x1d', '\x1e', '\x85',
   ' ', ' '].contains c

def splitlinesAux : List Char → List Char → List (List Char)
  | [], acc => if acc.isEmpty then [] else [acc.reverse]
  | '\r' :: '\n' :: rest, acc => acc.reverse :: splitlinesAux rest []
  | c :: rest, acc =>
      if isPyLineBreak c then acc.reverse :: splitlinesAux rest []
      else splitlinesAux rest (c :: acc)

/-- Python `str.splitlines()` (`\r\n` counts as a single break; no trailing
empty line for a trailing break). -/
def pySplitlines (cs : List Char) : List (List Char) := splitlinesAux cs []

/-- `seqStarts pre l`: `pre` is a leading segment of `l` (Python `startswith`,
also reused for command-line segment search). -/
def seqStarts {α : Type} [DecidableEq α] : List α → List α → Bool
  | [], _ => true
  | _ :: _, [] => false
  | a :: pre, b :: l => a = b && seqStarts pre l

/-- `seqHas seg l`: `seg` occurs as a contiguous segment of `l` (Python's
substring `in` on characters; also used for argument-vector segments). -/
def seqHas {α : Type} [DecidableEq α] (seg : List α) : List α → Bool
  | [] => seqStarts seg []
  | b :: l => seqStarts seg (b :: l) || seqHas seg l

/-- Python `str.endswith`. -/
def seqEnds {α : Type} [DecidableEq α] (suf l : List α) : Bool :=
  seqStarts suf.reverse l.reverse

/-- `_TIMESTAMP_LINE` of codex.py: `^\[\d{4}-\d{2}-\d{2}T\d{2}:\d{2}:\d{2}]`,
returning the end offset of the match (always 21) when it matches at the
start. -/
def timestampMatchEnd : List Char → Option Nat
  | '[' :: a :: b :: c :: d :: '-' :: e :: f :: '-' :: g :: h :: 'T' ::
      i :: j :: ':' :: k :: l :: ':' :: m :: n :: ']' :: _ =>
      if [a, b, c, d, e, f, g, h, i, j, k, l, m, n].all Char.isDigit then
        some 21
      else none
  | _ => none

def timestampLine (cs : List Char) : Bool := (timestampMatchEnd cs).isSome

/-- `_KNOWN_METADATA_PREFIXES` of codex.py. -/
def knownMetadataPrefixes : List (List Char) :=
  ["workdir:".data, "model:".data, "provider:".data, "approval:".data,
   "sandbox:".data, "reasoning effort:".data, "reasoning summaries:".data,
   "tokens used:".data, "user instructions:".data, "user:".data,
   "searched:".data, "searching:".data, "retrying ".data, "error:".data,
   "tool ".data]

/-- `_strip_leading_symbols` of codex.py: drop leading non-alphanumeric
characters. -/
def stripLeadingSymbols (cs : List Char) : List Char :=
  cs.dropWhile (fun c => !c.isAlphanum)

/-- `_is_metadata_line` of codex.py. -/
def isMetadataLine (text : List Char) : Bool :=
  timestampLine text ||
    knownMetadataPrefixes.any
      (fun pre => seqStarts pre (stripLeadingSymbols (pyLower text)))

/-- `_looks_like_codex_marker` of codex.py. -/
def looksLikeCodexMarker (text : List Char) : Bool :=
  seqStarts "assistant".data (pyLower text) ||
    (timestampLine text && seqHas " codex".data (pyLower text))

/-- Scanner state of `_json_structure_delta`: net bracket depth, whether the
scan is inside a double-quoted span, and whether the previous character was an
unconsumed backslash escape. -/
structure JsonScanState where
  delta : Int
  inString : Bool
  escape : Bool
  deriving DecidableEq, Repr

def jsonScanInit : JsonScanState := ⟨0, false, false⟩

/-- One character step of `_json_structure_delta`'s scan. -/
def jsonScanStep (st : JsonScanState) (ch : Char) : JsonScanState :=
  if st.inString then
    if st.escape then { st with escape := false }
    else if ch = '\\' then { st with escape := true }
    else if ch = '"' then { st with inString := false }
    else st
  else if ch = '"' then { st with inString := true }
  else if ch = '[' ∨ ch = '{' then { st with delta := st.delta + 1 }
  else if ch = ']' ∨ ch = '}' then { st with delta := st.delta - 1 }
  else st

def jsonScan (st : JsonScanState) (cs : List Char) : JsonScanState :=
  cs.foldl jsonScanStep st

/-- `_json_structure_delta` of codex.py: net change in JSON nesting depth of a
line, counting brackets and braces only outside quoted-string spans. -/
def jsonStructureDelta (text : List Char) : Int :=
  (jsonScan jsonScanInit text).delta

/-- `_CodexOutputFilter`'s mutable state. -/
structure FilterState where
  sawAssistant : Bool
  emittedAny : Bool
  inUserBlock : Bool
  skipToolOutput : Bool
  toolOutputDepth : Int
  deriving DecidableEq, Repr

def filterInit : FilterState := ⟨false, false, false, false, 0⟩

/-- The one-line tool-output-dump header test of `_CodexOutputFilter.process`
(lines 183-189 of codex.py), applied to the normalized line. -/
def toolHeaderLine (normalized : List Char) : Bool :=
  (seqHas " success".data normalized || seqHas " failed".data normalized) &&
    seqEnds ":".data normalized &&
    seqHas " in ".data normalized &&
    seqHas "(".data normalized &&
    seqHas ")".data normalized

/-- The `normalized` value computed by `_CodexOutputFilter.process` from the
stripped line: timestamp prefix removed if present, stripped, lower-cased,
leading symbols dropped. -/
def filterNormalize (stripped : List Char) : List Char :=
  match timestampMatchEnd stripped with
  | some n => stripLeadingSymbols (pyLower (pyStrip (stripped.drop n)))
  | none => stripLeadingSymbols (pyLower stripped)

/-- The part of `_CodexOutputFilter.process` after the tool-output-suppression
branch (codex.py lines 166-215), taking the already-computed rstripped line
and its stripped form. -/
def filterMain (st : FilterState) (line stripped : List Char) :
    FilterState × Option (List Char) :=
  let normalized := filterNormalize stripped
  if seqStarts "user instructions:".data normalized ||
      seqStarts "user:".data normalized then
    ({ st with inUserBlock := true }, none)
  else if seqStarts "assistant:".data normalized then
    ({ st with inUserBlock := false, sawAssistant := true }, none)
  else if toolHeaderLine normalized then
    ({ st with skipToolOutput := true, toolOutputDepth := 0 }, none)
  else if stripped = [] then
    if st.inUserBlock then (st, none)
    else if st.emittedAny then (st, some ['\n'])
    else (st, none)
  else if st.inUserBlock then
    if looksLikeCodexMarker stripped then
      ({ st with inUserBlock := false }, none)
    else (st, none)
  else if isMetadataLine stripped then (st, none)
  else
    ({ st with sawAssistant := true, emittedAny := true },
      some (line ++ ['\n']))

/-- `_CodexOutputFilter.process` of codex.py: one raw transcript line in, an
optional emitted chunk and the successor state out. -/
def filterProcess (st : FilterState) (rawLine : List Char) :
    FilterState × Option (List Char) :=
  let line := pyRstripSet rawLine ['\r', '\n']
  let stripped := pyStrip line
  if st.skipToolOutput then
    if stripped = [] then ({ st with skipToolOutput := false }, none)
    else if timestampLine stripped then
      filterMain { st with skipToolOutput := false } line stripped
    else
      let d := st.toolOutputDepth + jsonStructureDelta stripped
      (if d ≤ 0 then { st with toolOutputDepth := d, skipToolOutput := false }
       else { st with toolOutputDepth := d }, none)
  else filterMain st line stripped

/-- `_sanitize_codex_text` of codex.py: run every line of a whole text through
one filter instance, join the emitted chunks, and trim trailing newlines. -/
def sanitizeGo (st : FilterState) : List (List Char) → List (List Char)
  | [] => []
  | l :: ls =>
      match filterProcess st (l ++ ['\n']) with
      | (st', some out) =>
          if out.isEmpty then sanitizeGo st' ls else out :: sanitizeGo st' ls
      | (st', none) => sanitizeGo st' ls

def sanitizeCodexText (raw : List Char) : List Char :=
  pyRstripSet (sanitizeGo filterInit (pySplitlines raw)).flatten ['\n']

/-! JSON values and a parser mirroring what `json.loads` accepts, used by
`_classify_codex_failure`.  Numbers and constants are kept as their source
text; only object shape and string field values matter to the classifier. -/

inductive JValue where
  | null : JValue
  | bool (b : Bool) : JValue
  | num (text : List Char) : JValue
  | str (s : List Char) : JValue
  | arr (items : List JValue) : JValue
  | obj (fields : List (List Char × JValue)) : JValue
  deriving Repr

/-- JSON whitespace (`' \t\n\r'`, the set Python's decoder skips). -/
def isJsonWs (c : Char) : Bool := [' ', '\t', '\n', '\r'].contains c

def jskipWs (cs : List Char) : List Char := cs.dropWhile isJsonWs

def hexVal (c : Char) : Option Nat :=
  if c.isDigit then some (c.toNat - '0'.toNat)
  else if 'a' ≤ c ∧ c ≤ 'f' then some (c.toNat - 'a'.toNat + 10)
  else if 'A' ≤ c ∧ c ≤ 'F' then some (c.toNat - 'A'.toNat + 10)
  else none

def hex4 (a b c d : Char) : Option Nat := do
  let x ← hexVal a; let y ← hexVal b; let z ← hexVal c; let w ← hexVal d
  pure (((x * 16 + y) * 16 + z) * 16 + w)

/-- Decode one `\uXXXX` code unit (with surrogate-pair lookahead, as Python's
decoder performs it) into a character.  A lone surrogate, which Python would
keep as an unpaired code unit, maps to U+FFFD; no claim depends on it. -/
def charOfUnit (n : Nat) : Char :=
  if n.isValidChar then Char.ofNat n else '�'

/-- Parse the body of a JSON string after the opening quote (strict mode:
raw control characters below 0x20 are rejected). -/
def jparseStringBody : List Char → Option (List Char × List Char)
  | [] => none
  | '"' :: rest => some ([], rest)
  | '\\' :: esc =>
      match esc with
      | '"' :: rest => (jparseStringBody rest).map (fun (s, r) => ('"' :: s, r))
      | '\\' :: rest => (jparseStringBody rest).map (fun (s, r) => ('\\' :: s, r))
      | '/' :: rest => (jparseStringBody rest).map (fun (s, r) => ('/' :: s, r))
      | 'b' :: rest => (jparseStringBody rest).map (fun (s, r) => ('\x08' :: s, r))
      | 'f' :: rest => (jparseStringBody rest).map (fun (s, r) => ('\x0c' :: s, r))
      | 'n' :: rest => (jparseStringBody rest).map (fun (s, r) => ('\n' :: s, r))
      | 'r' :: rest => (jparseStringBody rest).map (fun (s, r) => ('\r' :: s, r))
      | 't' :: rest => (jparseStringBody rest).map (fun (s, r) => ('\t' :: s, r))
      | 'u' :: a :: b :: c :: d :: rest =>
          match hex4 a b c d with
          | none => none
          | some u =>
              let fallback :=
                (jparseStringBody rest).map (fun (s, r) => (charOfUnit u :: s, r))
              if 0xd800 ≤ u ∧ u < 0xdc00 then
                match rest with
                | '\\' :: 'u' :: e :: f :: g :: h :: rest2 =>
                    match hex4 e f g h with
                    | some u2 =>
                        if 0xdc00 ≤ u2 ∧ u2 < 0xe000 then
                          (jparseStringBody rest2).map (fun (s, r) =>
                            (charOfUnit
                              (0x10000 + (u - 0xd800) * 0x400 + (u2 - 0xdc00))
                              :: s, r))
                        else fallback
                    | none => fallback
                | _ => fallback
              else fallback
      | _ => none
  | c :: rest =>
      if c.toNat < 0x20 then none
      else (jparseStringBody rest).map (fun (s, r) => (c :: s, r))

def jtakeDigits (cs : List Char) : List Char × List Char :=
  (cs.takeWhile Char.isDigit, cs.dropWhile Char.isDigit)

/-- Parse a JSON number per the decoder's regex
`(-?(?:0|[1-9]\d*))(\.\d+)?([eE][-+]?\d+)?`, returning its matched text. -/
def jparseNumber (cs : List Char) : Option (List Char × List Char) :=
  let (sign, cs1) :=
    match cs with
    | '-' :: rest => (['-'], rest)
    | _ => ([], cs)
  match cs1 with
  | '0' :: rest => some (sign ++ ['0'], rest)
  | c :: _ =>
      if c.isDigit then
        let (ds, rest) := jtakeDigits cs1
        some (sign ++ ds, rest)
      else none
  | [] => none

def jparseFrac (cs : List Char) : List Char × List Char :=
  match cs with
  | '.' :: rest =>
      match jtakeDigits rest with
      | ([], _) => ([], cs)
      | (ds, rest2) => ('.' :: ds, rest2)
  | _ => ([], cs)

def jparseExp (cs : List Char) : List Char × List Char :=
  match cs with
  | e :: rest =>
      if e = 'e' ∨ e = 'E' then
        let (sgn, rest1) :=
          match rest with
          | '+' :: r => (['+'], r)
          | '-' :: r => (['-'], r)
          | _ => ([], rest)
        match jtakeDigits rest1 with
        | ([], _) => ([], cs)
        | (ds, rest2) => (e :: (sgn ++ ds), rest2)
      else ([], cs)
  | [] => ([], cs)

def jparseFullNumber (cs : List Char) : Option (List Char × List Char) :=
  match jparseNumber cs with
  | none => none
  | some (intPart, rest) =>
      let (fracPart, rest1) := jparseFrac rest
      let (expPart, rest2) := jparseExp rest1
      some (intPart ++ fracPart ++ expPart, rest2)

mutual

/-- Parse one JSON value after skipping leading whitespace (the order of
alternatives matches Python's scanner: string, object, array, literals,
number, then the NaN/Infinity constants). -/
def jparseValue : Nat → List Char → Option (JValue × List Char)
  | 0, _ => none
  | fuel + 1, cs =>
      match jskipWs cs with
      | '"' :: rest =>
          (jparseStringBody rest).map (fun (s, r) => (JValue.str s, r))
      | '{' :: rest => jparseMembers fuel rest []
      | '[' :: rest => jparseItems fuel rest []
      | 'n' :: 'u' :: 'l' :: 'l' :: rest => some (JValue.null, rest)
      | 't' :: 'r' :: 'u' :: 'e' :: rest => some (JValue.bool true, rest)
      | 'f' :: 'a' :: 'l' :: 's' :: 'e' :: rest => some (JValue.bool false, rest)
      | cs' =>
          match jparseFullNumber cs' with
          | some (text, rest) => some (JValue.num text, rest)
          | none =>
              match cs' with
              | 'N' :: 'a' :: 'N' :: rest =>
                  some (JValue.num "NaN".data, rest)
              | 'I' :: 'n' :: 'f' :: 'i' :: 'n' :: 'i' :: 't' :: 'y' :: rest =>
                  some (JValue.num "Infinity".data, rest)
              | '-' :: 'I' :: 'n' :: 'f' :: 'i' :: 'n' :: 'i' :: 't' :: 'y' ::
                  rest => some (JValue.num "-Infinity".data, rest)
              | _ => none

/-- Parse object members after `{` (accumulator holds members parsed so
far in order). -/
def jparseMembers (fuel : Nat) (cs : List Char)
    (acc : List (List Char × JValue)) : Option (JValue × List Char) :=
  match fuel with
  | 0 => none
  | fuel + 1 =>
      match jskipWs cs with
      | '}' :: rest =>
          if acc.isEmpty then some (JValue.obj [], rest) else none
      | '"' :: rest =>
          match jparseStringBody rest with
          | none => none
          | some (key, rest1) =>
              match jskipWs rest1 with
              | ':' :: rest2 =>
                  match jparseValue fuel rest2 with
                  | none => none
                  | some (v, rest3) =>
                      match jskipWs rest3 with
                      | ',' :: rest4 => jparseMembers fuel rest4 (acc ++ [(key, v)])
                      | '}' :: rest4 => some (JValue.obj (acc ++ [(key, v)]), rest4)
                      | _ => none
              | _ => none
      | _ => none

/-- Parse array items after `[`. -/
def jparseItems (fuel : Nat) (cs : List Char) (acc : List JValue) :
    Option (JValue × List Char) :=
  match fuel with
  | 0 => none
  | fuel + 1 =>
      match jskipWs cs with
      | ']' :: rest =>
          if acc.isEmpty then some (JValue.arr [], rest) else none
      | cs' =>
          match jparseValue fuel cs' with
          | none => none
          | some (v, rest) =>
              match jskipWs rest with
              | ',' :: rest1 => jparseItems fuel rest1 (acc ++ [v])
              | ']' :: rest1 => some (JValue.arr (acc ++ [v]), rest1)
              | _ => none

end

/-- `json.loads`: parse a complete JSON document, requiring only whitespace
after the value. -/
def jsonLoads (cs : List Char) : Option JValue :=
  match jparseValue (2 * cs.length + 2) cs with
  | some (v, rest) => if (jskipWs rest).isEmpty then some v else none
  | none => none

/-- Python `dict(...)` field access for a parsed object: on duplicate keys the
last occurrence wins, as in `json.loads`. -/
def jgetField (fields : List (List Char × JValue)) (key : List Char) :
    Option JValue :=
  ((fields.filter (fun p => p.1 = key)).getLast?).map Prod.snd

/-- The JSON branch of `_classify_codex_failure`'s scan (codex.py lines
943-958): for a line that starts with `{` and ends with `}` and parses as a
JSON object, the first of `error.message` / top-level `message` that is a
string with non-blank content, stripped. -/
def extractJsonMessage (line : List Char) : Option (List Char) :=
  if seqStarts ['{'] line && seqEnds ['}'] line then
    match jsonLoads line with
    | some (JValue.obj fields) =>
        let fromError :=
          match jgetField fields "error".data with
          | some (JValue.obj errFields) =>
              match jgetField errFields "message".data with
              | some (JValue.str m) =>
                  if pyStrip m ≠ [] then some (pyStrip m) else none
              | _ => none
          | _ => none
        match fromError with
        | some m => some m
        | none =>
            match jgetField fields "message".data with
            | some (JValue.str m) =>
                if pyStrip m ≠ [] then some (pyStrip m) else none
            | _ => none
    | _ => none
  else none

/-- The lexical error-marker test of the scan (codex.py lines 959-962). -/
def errorMarkerLine (line : List Char) : Bool :=
  seqStarts "error:".data (pyLower line) ||
    seqHas "unauthorized".data (pyLower line) ||
    seqHas "rate limit".data (pyLower line)

/-- The `for line in reversed(lines)` scan of `_classify_codex_failure`,
given the collected lines already reversed. -/
def classifyScan : List (List Char) → Option (List Char)
  | [] => none
  | l :: rest =>
      match extractJsonMessage l with
      | some m => some m
      | none => if errorMarkerLine l then some l else classifyScan rest

/-- `_collect_lines` of `_classify_codex_failure`: non-blank stripped lines. -/
def collectLines (text : List Char) : List (List Char) :=
  (pySplitlines text).filterMap
    (fun l => if pyStrip l ≠ [] then some (pyStrip l) else none)

def genericFailureMessage : List Char := "codex execution failed".data

/-- `_classify_codex_failure` of codex.py: derive a message and optional HTTP
status code from captured stdout/stderr text. -/
def classifyCodexFailure (stdoutText stderrText : List Char) :
    List Char × Option Nat :=
  let lines :=
    (if stderrText ≠ [] then collectLines stderrText else []) ++
      (if stdoutText ≠ [] then collectLines stdoutText else [])
  let message :=
    match classifyScan lines.reverse with
    | some m => m
    | none => lines.getLast?.getD genericFailureMessage
  let lowerMsg := pyLower message
  let status :=
    if seqHas "401".data message || seqHas "unauthorized".data lowerMsg then
      some 401
    else if seqHas "429".data message || seqHas "rate limit".data lowerMsg then
      some 429
    else if seqHas "timeout".data lowerMsg then some 504
    else none
  (message, status)

/-! Command builder (`_build_cmd_and_env`).  Python dict values that can occur
in the configuration are strings, booleans, and numbers; `None` override
values are represented with `Option`.  The executable path and the
skip-git-check bit are results of the (effectful) resolvers and enter as
parameters. -/

inductive PyVal where
  | str (s : List Char) : PyVal
  | bool (b : Bool) : PyVal
  | int (n : Int) : PyVal
  deriving DecidableEq, Repr

/-- Python truthiness for the values above. -/
def pyTruthy : PyVal → Bool
  | PyVal.str s => !s.isEmpty
  | PyVal.bool b => b
  | PyVal.int n => n ≠ 0

def pyTruthyOpt : Option PyVal → Bool
  | none => false
  | some v => pyTruthy v

/-- Python `str(value)` for bare (non-string, non-bool) config values. -/
def pyValBare : Int → List Char := fun n => (toString n).data

/-- An insertion-ordered Python dict over string keys. -/
abbrev PyDict : Type := List (List Char × PyVal)

/-- `d[k] = v`: replace the value at the first occurrence of `k` in place, or
append a new entry. -/
def dictSet (d : PyDict) (k : List Char) (v : PyVal) : PyDict :=
  match d with
  | [] => [(k, v)]
  | (k', v') :: rest =>
      if k' = k then (k', v) :: rest else (k', v') :: dictSet rest k v

/-- `k in d`. -/
def dictHasKey (d : PyDict) (k : List Char) : Bool :=
  d.any (fun p => p.1 = k)

/-- `d.get(k)` (first occurrence; keys are unique in dicts built by
`dictSet`). -/
def dictGet (d : PyDict) (k : List Char) : Option PyVal :=
  (d.find? (fun p => p.1 = k)).map Prod.snd

/-- `d.pop(k, None)`'s effect on the dict: remove the key. -/
def dictPop (d : PyDict) (k : List Char) : PyDict :=
  d.filter (fun p => p.1 ≠ k)

/-- A per-request override map (`x_codex`): Python passes a dict whose values
may be `None`. -/
abbrev Overrides : Type := List (List Char × Option PyVal)

/-- `overrides.get(k)` merged over "missing" and "stored `None`", as Python's
`dict.get` returns `None` in both cases. -/
def ovGet (ov : Option Overrides) (k : List Char) : Option PyVal :=
  match ov with
  | none => none
  | some l =>
      match (l.find? (fun p => p.1 = k)).map Prod.snd with
      | some (some v) => some v
      | _ => none

/-- `k in overrides` with the key literally absent (no entry, even `None`). -/
def ovKeyAbsent (ov : Option Overrides) (k : List Char) : Bool :=
  match ov with
  | none => true
  | some l => !l.any (fun p => p.1 = k)

/-- The settings fields `_build_cmd_and_env` reads.  `reasoningEffort` is
`some s` when `settings.reasoning_effort` is a string (the `isinstance`
check), `none` otherwise. -/
structure BuildSettings where
  sandboxMode : List Char
  hideReasoning : Bool
  reasoningEffort : Option (List Char)
  workspaceNetworkAccess : Bool
  deriving Repr

def allowedReasoningEfforts : List (List Char) :=
  ["low".data, "medium".data, "high".data, "xhigh".data]

/-- The base configuration plus the allow-listed default reasoning effort
(codex.py lines 579-589). -/
def buildBaseCfg (s : BuildSettings) : PyDict :=
  let cfg : PyDict :=
    [("sandbox_mode".data, PyVal.str s.sandboxMode),
     ("hide_agent_reasoning".data, PyVal.bool s.hideReasoning)]
  match s.reasoningEffort with
  | some e =>
      let eff := pyLower (pyStrip e)
      if allowedReasoningEfforts.contains eff then
        dictSet cfg "model_reasoning_effort".data (PyVal.str eff)
      else cfg
  | none => cfg

/-- The override key-mapping loop (codex.py lines 592-607). -/
def mapOverrides (l : Overrides) : PyDict :=
  l.foldl
    (fun m p =>
      match p.2 with
      | none => m
      | some v =>
          if p.1 = "sandbox".data then dictSet m "sandbox_mode".data v
          else if p.1 = "reasoning_effort".data then
            dictSet m "model_reasoning_effort".data v
          else if p.1 = "hide_reasoning".data then
            dictSet m "hide_agent_reasoning".data (PyVal.bool (pyTruthy v))
          else if p.1 = "expose_reasoning".data then
            dictSet m "hide_agent_reasoning".data (PyVal.bool (!pyTruthy v))
          else dictSet m p.1 v)
    []

/-- `cfg.update(mapped)`. -/
def dictUpdate (d : PyDict) (m : PyDict) : PyDict :=
  m.foldl (fun acc p => dictSet acc p.1 p.2) d

/-- The `model and model.startswith("gpt-5")` guard. -/
def modelIsGpt5 (model : Option (List Char)) : Bool :=
  match model with
  | some m => !m.isEmpty && seqStarts "gpt-5".data m
  | none => false

/-- The configuration dict as it stands when the `--config` serialisation
loop runs (codex.py lines 579-630): base + defaults, overrides applied, and
the gpt-5 default-reasoning-effort drop. -/
def buildCfgFinal (s : BuildSettings) (ov : Option Overrides)
    (model : Option (List Char)) : PyDict :=
  let cfg := buildBaseCfg s
  let cfg :=
    match ov with
    | some l => dictUpdate cfg (mapOverrides l)
    | none => cfg
  if modelIsGpt5 model && dictHasKey cfg "model_reasoning_effort".data &&
      !((match ov with | some l => !l.isEmpty | none => false) &&
          pyTruthyOpt (ovGet ov "reasoning_effort".data)) then
    dictPop cfg "model_reasoning_effort".data
  else cfg

/-- The `--config key=value` rendering of one entry (codex.py lines 636-643):
strings TOML-quoted, booleans lowercase, numbers bare. -/
def renderConfigValue : PyVal → List Char
  | PyVal.str v => '"' :: (v ++ ['"'])
  | PyVal.bool b => if b then "true".data else "false".data
  | PyVal.int n => pyValBare n

def renderConfigEntry (k : List Char) (v : PyVal) : List Char :=
  k ++ ('=' :: renderConfigValue v)

/-- The serialisation loop over the configuration (skipping
`network_access`). -/
def cfgArgs (cfg : PyDict) : List (List Char) :=
  cfg.flatMap
    (fun p =>
      if p.1 = "network_access".data then []
      else ["--config".data, renderConfigEntry p.1 p.2])

/-- `_build_cmd_and_env` of codex.py, given the resolved executable and the
workdir's skip-git-check bit. -/
def buildCmd (s : BuildSettings) (prompt : List Char) (ov : Option Overrides)
    (images : List (List Char)) (model : Option (List Char))
    (exe : List Char) (needsSkipGitCheck : Bool) : List (List Char) :=
  let cfg := buildCfgFinal s ov model
  let cmd :=
    [exe, "exec".data, prompt, "--color".data, "never".data] ++
      (if needsSkipGitCheck then ["--skip-git-repo-check".data] else []) ++
      images.flatMap (fun img => ["--image".data, img]) ++
      cfgArgs cfg ++
      (match model with
       | some m =>
           if !m.isEmpty then
             ["--config".data, "model=".data ++ ('"' :: (m ++ ['"']))]
           else []
       | none => [])
  let overrideNetwork := ovGet ov "network_access".data
  let effectiveSandbox :=
    (dictGet cfg "sandbox_mode".data).getD (PyVal.str s.sandboxMode)
  if effectiveSandbox = PyVal.str "workspace-write".data then
    let allowNetwork :=
      match overrideNetwork with
      | some v => pyTruthy v
      | none => s.workspaceNetworkAccess
    if overrideNetwork.isSome || s.workspaceNetworkAccess then
      cmd ++ ["--config".data,
        "sandbox_workspace_write=\x7b network_access = ".data ++
          (if allowNetwork then "true".data else "false".data) ++ " \x7d".data]
    else cmd
  else cmd

/-! Workdir / home resolvers.  Filesystem effects are abstracted into an
environment: `probe p` models `p.mkdir(parents=True, exist_ok=True)` followed
by `_verify_directory_write_access(p)` (create-and-delete a probe file),
returning `none` on success and `some errText` on the raised exception's
text; `expanduser`/`resolvePath` model the corresponding `Path` methods
(`resolvePath` returns `none` when `.resolve()` raises, which the code
suppresses); `isGitRepo` models `_is_git_repository`.  Each resolver also
returns the list of candidate directories it actually probed, so that
re-probing behaviour is observable. -/

structure FsEnv where
  expanduser : List Char → List Char
  resolvePath : List Char → Option (List Char)
  gettempdir : List Char
  homeDir : List Char
  probe : List Char → Option (List Char)
  isGitRepo : List Char → Bool

/-- The candidate loop shared by `_ensure_workdir_exists` and
`_resolve_codex_home_dir`: try candidates in order, collecting per-candidate
errors, stopping at the first success; also report which candidates were
probed. -/
def resolveLoop (probe : List Char → Option (List Char)) :
    List (List Char) →
      Option (List Char) × List (List Char × List Char) × List (List Char)
  | [] => (none, [], [])
  | c :: rest =>
      match probe c with
      | some err =>
          ((resolveLoop probe rest).1,
            (c, err) :: (resolveLoop probe rest).2.1,
            c :: (resolveLoop probe rest).2.2)
      | none => (some c, [], [c])

/-- `"; ".join(f"{path}: {err}" ...) or "no candidates"`. -/
def joinErrors (errs : List (List Char × List Char)) : List Char :=
  if errs.isEmpty then "no candidates".data
  else
    List.intercalate "; ".data (errs.map (fun p => p.1 ++ ": ".data ++ p.2))

/-- Append a candidate only if absent (`if fallback not in candidates`). -/
def addCandidate (cs : List (List Char)) (c : List Char) : List (List Char) :=
  if cs.contains c then cs else cs ++ [c]

/-- The module state `_ensure_workdir_exists` reads and writes:
`_WORKDIR_PATH`, `_WORKDIR_NEEDS_SKIP_GIT_CHECK` and
`settings.codex_workdir`. -/
structure WorkdirState where
  workdirPath : Option (List Char)
  needsSkipGitCheck : Bool
  settingsWorkdir : List Char
  deriving DecidableEq, Repr

/-- The candidate list of `_ensure_workdir_exists` (codex.py lines 314-323):
the configured path, then the temp-directory subfolder, then the user-cache
subfolder, deduplicated. -/
def workdirCandidates (env : FsEnv) (st : WorkdirState) : List (List Char) :=
  let requested := env.expanduser st.settingsWorkdir
  addCandidate
    (addCandidate [requested] (env.gettempdir ++ "/codex-workdir".data))
    (env.homeDir ++ "/.cache/codex-wrapper".data)

/-- `_ensure_workdir_exists` of codex.py: resolve-once-and-cache working
directory with ordered fallback; the second component is the list of
candidates probed by this call. -/
def ensureWorkdirExists (env : FsEnv) (st : WorkdirState) :
    Except (List Char) WorkdirState × List (List Char) :=
  if st.workdirPath.isSome then (Except.ok st, [])
  else
    let loop := resolveLoop env.probe (workdirCandidates env st)
    match loop.1 with
    | none =>
        (Except.error ("Failed to prepare Codex work directory (".data ++
          joinErrors loop.2.1 ++ ")".data), loop.2.2)
    | some c =>
        let resolved := (env.resolvePath c).getD c
        (Except.ok
          { workdirPath := some resolved,
            needsSkipGitCheck := !env.isGitRepo resolved,
            settingsWorkdir := resolved }, loop.2.2)

/-- The process state `_resolve_codex_home_dir` reads and writes:
`settings.codex_config_dir`, the `CODEX_HOME` environment variable and
`settings.codex_workdir`. -/
structure HomeState where
  settingsConfigDir : Option (List Char)
  envCodexHome : Option (List Char)
  settingsWorkdir : List Char
  deriving DecidableEq, Repr

/-- The candidate list of `_resolve_codex_home_dir` (codex.py lines
379-402). -/
def homeCandidates (env : FsEnv) (st : HomeState) : List (List Char) :=
  let cs : List (List Char) :=
    match st.settingsConfigDir with
    | some s => if !s.isEmpty then [env.expanduser s] else []
    | none => []
  let cs :=
    match st.envCodexHome with
    | some s => if !s.isEmpty then addCandidate cs (env.expanduser s) else cs
    | none => cs
  let cs := addCandidate cs (env.expanduser st.settingsWorkdir ++ "/.codex".data)
  let cs := addCandidate cs (env.gettempdir ++ "/codex".data)
  addCandidate cs (env.homeDir ++ "/.codex".data)

/-- `_resolve_codex_home_dir` of codex.py (with
`_configure_codex_home_environment`'s state effects): resolve the home
directory by ordered probing — on every call — then persist the result into
`CODEX_HOME` and `settings.codex_config_dir`.  The second component is the
list of candidates probed by this call. -/
def resolveCodexHomeDir (env : FsEnv) (st : HomeState) :
    Except (List Char) (List Char × HomeState) × List (List Char) :=
  let loop := resolveLoop env.probe (homeCandidates env st)
  match loop.1 with
  | none =>
      (Except.error ("Failed to prepare Codex home directory (".data ++
        joinErrors loop.2.1 ++ ")".data), loop.2.2)
  | some c =>
      (Except.ok (c,
        { st with envCodexHome := some c, settingsConfigDir := some c }),
        loop.2.2)

/-! Concurrency limiter (`_CodexConcurrencyLimiter`).  The semaphore is
modelled by its available-permit count; whether some other holder releases a
permit during this attempt's wait window is an environment choice
(`freedWithinWait`).  A waiter woken by a release takes the permit directly,
leaving the count at zero. -/

structure LimiterState where
  maxParallel : Nat
  queueTimeoutSeconds : ℚ
  available : Nat
  deriving DecidableEq, Repr

/-- `_CodexConcurrencyLimiter.configure`: clamp parallelism to at least 1 and
the queue timeout to at least 0, and create a fresh semaphore. -/
def limiterConfigure (maxParallel : Int) (queueTimeout : ℚ) : LimiterState :=
  let value := (max 1 maxParallel).toNat
  { maxParallel := value,
    queueTimeoutSeconds := max 0 queueTimeout,
    available := value }

structure CodexErr where
  message : List Char
  statusCode : Option Nat
  deriving DecidableEq, Repr

def queueBusyError : CodexErr :=
  ⟨"Codex worker pool is busy; timed out waiting for an available slot".data,
    some 503⟩

inductive SlotOutcome where
  /-- `acquire` returned within the wait. -/
  | acquired : SlotOutcome
  /-- `asyncio.wait_for` raised `TimeoutError`, mapped to a `CodexError`. -/
  | busy (e : CodexErr) : SlotOutcome
  /-- no queue timeout configured and no release ever happens: the attempt
  stays suspended. -/
  | stillWaiting : SlotOutcome
  deriving DecidableEq, Repr

/-- The acquisition half of `_CodexConcurrencyLimiter.slot` (codex.py lines
84-100): immediate acquire when a permit is free; otherwise wait, bounded by
the queue timeout when one is configured. -/
def slotAcquire (st : LimiterState) (freedWithinWait : Bool) :
    SlotOutcome × LimiterState :=
  if 0 < st.available then
    (SlotOutcome.acquired, { st with available := st.available - 1 })
  else if freedWithinWait then (SlotOutcome.acquired, st)
  else if 0 < st.queueTimeoutSeconds then (SlotOutcome.busy queueBusyError, st)
  else (SlotOutcome.stillWaiting, st)

/-- The release half of `slot`'s `finally`: release exactly when the acquire
succeeded. -/
def slotRelease (st : LimiterState) (acquired : Bool) : LimiterState :=
  if acquired then { st with available := st.available + 1 } else st

/-! Process runner.  A run after admission and spawn is driven by an event
script: each stdout line carries the absolute time (seconds since the run
started) at which its `readline` completes, `eofTime` is when the empty
end-of-stream read completes, and `exitTime` is when the process exits (when
`proc.wait()` would complete).  `asyncio.wait_for` with a positive budget
`r` started at time `now` times out exactly when the awaited completion lies
strictly beyond `now + r`; `_remaining_timeout` raises when its recomputed
budget is non-positive.  `killed`/`awaited` record whether the run killed the
subprocess and awaited its termination. -/

inductive RunErr where
  /-- the `asyncio.TimeoutError` handler: `CodexError("codex execution timed
  out", status_code=504)`. -/
  | timeout : RunErr
  /-- non-zero exit: `CodexError(*_classify_codex_failure(...))`. -/
  | classified (message : List Char) (statusCode : Option Nat) : RunErr
  deriving DecidableEq, Repr

/-- The `CodexError` each failure raises. -/
def runErrToCodexErr : RunErr → CodexErr
  | RunErr.timeout => ⟨"codex execution timed out".data, some 504⟩
  | RunErr.classified m s => ⟨m, s⟩

instance {ε α : Type} [DecidableEq ε] [DecidableEq α] :
    DecidableEq (Except ε α) := fun a b =>
  match a, b with
  | Except.ok x, Except.ok y =>
      if h : x = y then isTrue (by rw [h]) else
        isFalse (by intro hc; cases hc; exact h rfl)
  | Except.error x, Except.error y =>
      if h : x = y then isTrue (by rw [h]) else
        isFalse (by intro hc; cases hc; exact h rfl)
  | Except.ok _, Except.error _ => isFalse (by intro hc; cases hc)
  | Except.error _, Except.ok _ => isFalse (by intro hc; cases hc)

structure StreamScript where
  lines : List (ℚ × List Char)
  eofTime : ℚ
  exitTime : ℚ
  exitCode : Int
  stderrText : List Char

structure StreamResult where
  yielded : List (List Char)
  result : Except RunErr Unit
  killed : Bool
  awaited : Bool
  deriving DecidableEq, Repr

/-- The `asyncio.TimeoutError` path of `run_codex` (codex.py lines
1060-1065): kill the process if still running, await it, and fail with the
fixed timeout error.  `raiseTime` is the absolute time the exception is
raised. -/
def streamTimeoutResult (sc : StreamScript) (raiseTime : ℚ)
    (yielded : List (List Char)) : StreamResult :=
  { yielded := yielded, result := Except.error RunErr.timeout,
    killed := raiseTime < sc.exitTime, awaited := raiseTime < sc.exitTime }

/-- The post-wait tail of `run_codex` (codex.py lines 1053-1059): classify a
non-zero exit, otherwise finish normally. -/
def streamWaitDone (sc : StreamScript) (yielded raws : List (List Char)) :
    StreamResult :=
  if sc.exitCode ≠ 0 then
    let cls := classifyCodexFailure raws.flatten sc.stderrText
    { yielded := yielded,
      result := Except.error (RunErr.classified cls.1 cls.2),
      killed := false, awaited := true }
  else
    { yielded := yielded, result := Except.ok (), killed := false,
      awaited := true }

/-- After the read loop broke on end-of-stream at time `now`: re-check the
budget, then await process exit under it (codex.py lines 1048-1052). -/
def streamAfterLoop (t : ℚ) (sc : StreamScript) (now : ℚ)
    (yielded raws : List (List Char)) : StreamResult :=
  if t ≤ 0 then streamWaitDone sc yielded raws
  else if t - now ≤ 0 then streamTimeoutResult sc now yielded
  else if t < sc.exitTime then streamTimeoutResult sc t yielded
  else streamWaitDone sc yielded raws

/-- The `while True` read loop of `run_codex` (codex.py lines 1033-1047),
from current time `now` with the still-pending line events. -/
def streamGo (t : ℚ) (sc : StreamScript) (now : ℚ) (fs : FilterState)
    (yielded raws : List (List Char)) :
    List (ℚ × List Char) → StreamResult
  | [] =>
      if t ≤ 0 then streamAfterLoop t sc sc.eofTime yielded raws
      else if t - now ≤ 0 then streamTimeoutResult sc now yielded
      else if t < sc.eofTime then streamTimeoutResult sc t yielded
      else streamAfterLoop t sc sc.eofTime yielded raws
  | (tm, s) :: rest =>
      if t ≤ 0 then
        let step := filterProcess fs (pyRstripSet s ['\n'])
        let yielded' :=
          match step.2 with
          | some o => if o.isEmpty then yielded else yielded ++ [o]
          | none => yielded
        streamGo t sc tm step.1 yielded' (raws ++ [s]) rest
      else if t - now ≤ 0 then streamTimeoutResult sc now yielded
      else if t < tm then streamTimeoutResult sc t yielded
      else
        let step := filterProcess fs (pyRstripSet s ['\n'])
        let yielded' :=
          match step.2 with
          | some o => if o.isEmpty then yielded else yielded ++ [o]
          | none => yielded
        streamGo t sc tm step.1 yielded' (raws ++ [s]) rest

/-- `run_codex` of codex.py after admission and spawn, driven by an event
script, with `t = float(settings.timeout_seconds)`. -/
def runCodexStream (t : ℚ) (sc : StreamScript) : StreamResult :=
  streamGo t sc 0 filterInit [] [] sc.lines

structure BatchScript where
  /-- when `proc.communicate()` completes. -/
  commTime : ℚ
  /-- when the process itself exits (never after `commTime`). -/
  exitTime : ℚ
  exitCode : Int
  stdoutData : List Char
  stderrData : List Char
  /-- contents of the `--output-last-message` file; `none` models a failed
  read. -/
  lastMessageFile : Option (List Char)

structure BatchResult where
  result : Except RunErr (List Char)
  killed : Bool
  awaited : Bool
  deriving DecidableEq, Repr

/-- `run_codex_last_message` of codex.py after admission and spawn:
`asyncio.wait_for(proc.communicate(), timeout=settings.timeout_seconds)`
(an already-completed future survives a non-positive budget, hence the
`max t 0` deadline), then classify, read the last-message file, fall back to
stdout, sanitize. -/
def runCodexLastMessage (t : ℚ) (bs : BatchScript) : BatchResult :=
  if max t 0 < bs.commTime then
    { result := Except.error RunErr.timeout,
      killed := max t 0 < bs.exitTime, awaited := max t 0 < bs.exitTime }
  else if bs.exitCode ≠ 0 then
    let cls := classifyCodexFailure bs.stdoutData bs.stderrData
    { result := Except.error (RunErr.classified cls.1 cls.2),
      killed := false, awaited := true }
  else
    let text0 := bs.lastMessageFile.getD []
    let text := if text0.isEmpty then bs.stdoutData else text0
    let sanitized := sanitizeCodexText text
    { result := Except.ok (if !sanitized.isEmpty then sanitized
        else pyStrip text),
      killed := false, awaited := true }

/-! Theorems. -/

lemma jsonScan_append (st : JsonScanState) (a b : List Char) :
    jsonScan st (a ++ b) = jsonScan (jsonScan st a) b := by
  simp [jsonScan, List.foldl_append]

lemma jsonScanStep_quoted_bracket (st : JsonScanState) (c : Char)
    (hin : st.inString = true) (hesc : st.escape = false)
    (hc : c = '[' ∨ c = '{' ∨ c = ']' ∨ c = '}') :
    jsonScanStep st c = st := by
  have hb : c ≠ '\\' ∧ c ≠ '"' := by
    rcases hc with h | h | h | h <;> subst h <;> exact ⟨by decide, by decide⟩
  simp [jsonScanStep, hin, hesc, hb.1, hb.2]

lemma jsonScan_quoted_brackets (st : JsonScanState) (ins : List Char)
    (hin : st.inString = true) (hesc : st.escape = false)
    (hbr : ∀ c ∈ ins, c = '[' ∨ c = '{' ∨ c = ']' ∨ c = '}') :
    jsonScan st ins = st := by
  induction ins with
  | nil => rfl
  | cons c rest ih =>
      have hstep : jsonScanStep st c = st :=
        jsonScanStep_quoted_bracket st c hin hesc (hbr c (by simp))
      show jsonScan (jsonScanStep st c) rest = st
      rw [hstep]
      exact ih (fun d hd => hbr d (by simp [hd]))

/-- C9: the tool-output depth delta is computed only from brackets and braces
outside quoted-string spans — inserting any run of bracket or brace
characters at a point where the scanner is inside a double-quoted span (and
not at a backslash-escaped position) leaves `_json_structure_delta`
unchanged. -/
theorem json_structure_delta_quoted_insertion (p ins s : List Char)
    (hin : (jsonScan jsonScanInit p).inString = true)
    (hesc : (jsonScan jsonScanInit p).escape = false)
    (hbr : ∀ c ∈ ins, c = '[' ∨ c = '{' ∨ c = ']' ∨ c = '}') :
    jsonStructureDelta (p ++ ins ++ s) = jsonStructureDelta (p ++ s) := by
  unfold jsonStructureDelta
  rw [List.append_assoc, jsonScan_append, jsonScan_append,
    jsonScan_quoted_brackets (jsonScan jsonScanInit p) ins hin hesc hbr,
    ← jsonScan_append]

/-- C9 witness: inserting `{{` inside the quoted span of `"ab` leaves the
delta of `"ab" }` unchanged. -/
theorem json_structure_delta_quoted_insertion_witness :
    (jsonScan jsonScanInit ['"', 'a', 'b']).inString = true ∧
    jsonStructureDelta (['"', 'a', 'b'] ++ ['{', '{'] ++ ['"', ' ', '}']) =
      jsonStructureDelta (['"', 'a', 'b'] ++ ['"', ' ', '}']) :=
  ⟨by decide,
    json_structure_delta_quoted_insertion ['"', 'a', 'b'] ['{', '{']
      ['"', ' ', '}'] (by decide) (by decide) (by decide)⟩

def c3Run1 : FilterState × Option (List Char) :=
  filterProcess filterInit "hi".data

def c3Run2 : FilterState × Option (List Char) := filterProcess c3Run1.1 []

def c3Run3 : FilterState × Option (List Char) := filterProcess c3Run2.1 []

/-- C3 counterexample: after the content line `hi`, a run of two consecutive
blank lines — with no suppression state active — produces a newline for the
second blank of the run as well, not only for the first. -/
theorem filter_blank_run_counterexample :
    c3Run2.1.skipToolOutput = false ∧ c3Run2.1.inUserBlock = false ∧
    c3Run2.2 = some ['\n'] ∧ c3Run3.2 = some ['\n'] := by decide

/-- C3 amended: while no suppression state is active, a blank line yields no
output as long as no content line has been emitted; once at least one content
line has been emitted, every blank line of a run is forwarded as a newline
separator (the filter does not collapse blank runs), and the state is left
unchanged. -/
theorem filter_blank_line_emission (st : FilterState) (raw : List Char)
    (hskip : st.skipToolOutput = false) (huser : st.inUserBlock = false)
    (hblank : pyStrip (pyRstripSet raw ['\r', '\n']) = []) :
    filterProcess st raw =
      (st, if st.emittedAny then some ['\n'] else none) := by
  unfold filterProcess filterMain
  simp only [hskip, hblank, huser, Bool.false_eq_true, if_false]
  simp [filterNormalize, timestampMatchEnd, pyLower, stripLeadingSymbols,
    seqStarts, toolHeaderLine, seqHas, seqEnds]
  split <;> rfl

/-- C3 amended witness: a blank line after emitted content, in a clean state,
is forwarded as a newline. -/
theorem filter_blank_line_emission_witness :
    (FilterState.mk true true false false 0).skipToolOutput = false ∧
    pyStrip (pyRstripSet "  \r\n".data ['\r', '\n']) = [] ∧
    filterProcess (FilterState.mk true true false false 0) "  \r\n".data =
      (FilterState.mk true true false false 0, some ['\n']) :=
  ⟨rfl, by decide,
    filter_blank_line_emission (FilterState.mk true true false false 0)
      "  \r\n".data rfl rfl (by decide)⟩

def c5State : FilterState := ⟨false, false, true, false, 0⟩

def c5Line : List Char := "called tool success in (2.0s):".data

/-- C5 counterexample: while the user-instructions block is active (and tool
suppression is not), a tool-output header line — which is not an
assistant-turn marker — flips on tool-output suppression while leaving the
user-instructions flag set: a state change other than ending the block. -/
theorem filter_user_block_counterexample :
    (filterProcess c5State c5Line).2 = none ∧
    (filterProcess c5State c5Line).1.skipToolOutput = true ∧
    (filterProcess c5State c5Line).1.inUserBlock = true ∧
    seqStarts "assistant".data
      (filterNormalize (pyStrip (pyRstripSet c5Line ['\r', '\n']))) = false ∧
    looksLikeCodexMarker (pyStrip (pyRstripSet c5Line ['\r', '\n'])) = false := by
  decide

/-- The per-line state transition performed while user-instructions
suppression is active and tool-output suppression is not: a user marker line
keeps the block; a normalized `assistant:` line ends the block and marks the
assistant turn seen; a tool-output header line additionally enters
tool-output suppression (with the user flag still set); a blank line changes
nothing; a codex marker line ends the block; anything else changes
nothing.  Nothing is ever emitted. -/
def userBlockStepSpec (st : FilterState) (raw : List Char) : FilterState :=
  let stripped := pyStrip (pyRstripSet raw ['\r', '\n'])
  let normalized := filterNormalize stripped
  if seqStarts "user instructions:".data normalized ||
      seqStarts "user:".data normalized then st
  else if seqStarts "assistant:".data normalized then
    { st with inUserBlock := false, sawAssistant := true }
  else if toolHeaderLine normalized then
    { st with skipToolOutput := true, toolOutputDepth := 0 }
  else if stripped = [] then st
  else if looksLikeCodexMarker stripped then { st with inUserBlock := false }
  else st

/-- C5 amended: while user-instructions suppression is active and tool-output
suppression is not, the filter emits nothing, and the state evolves exactly
as `userBlockStepSpec` describes — in particular the block is ended by the
`assistant:`/codex-marker lines, but a tool-output header line causes an
additional state change (entering tool-output suppression) that is not an
end of the block. -/
theorem filter_user_block_behaviour (st : FilterState) (raw : List Char)
    (huser : st.inUserBlock = true) (hskip : st.skipToolOutput = false) :
    filterProcess st raw = (userBlockStepSpec st raw, none) := by
  obtain ⟨a, b, c, d, e⟩ := st
  simp only at huser hskip
  subst huser hskip
  unfold filterProcess filterMain userBlockStepSpec
  simp only [Bool.false_eq_true, if_false]
  split_ifs <;> simp_all

/-- C5 amended witness: a plain content line inside the user block is dropped
with no state change. -/
theorem filter_user_block_behaviour_witness :
    c5State.inUserBlock = true ∧
    filterProcess c5State "some user text".data =
      (userBlockStepSpec c5State "some user text".data, none) :=
  ⟨rfl, filter_user_block_behaviour c5State "some user text".data rfl rfl⟩

/-- The candidate-line predicate of the claim's description of the
classification scan: the line parses as a JSON object yielding a non-empty
`error.message` or top-level `message` string, or it carries a lexical error
marker. -/
def classifyCandidate (l : List Char) : Bool :=
  (extractJsonMessage l).isSome || errorMarkerLine l

/-- The message selection as the spec describes it: non-blank stripped stderr
lines followed by stdout lines, scanned newest to oldest for the first
candidate line (whose JSON-extracted message, if any, wins over the raw
line); otherwise the last non-blank line; otherwise the generic fallback. -/
def classifySpecMessage (stdoutText stderrText : List Char) : List Char :=
  let lines := collectLines stderrText ++ collectLines stdoutText
  match lines.reverse.find? classifyCandidate with
  | some l => (extractJsonMessage l).getD l
  | none => lines.getLast?.getD genericFailureMessage

lemma classifyScan_eq_find (ls : List (List Char)) :
    classifyScan ls =
      (ls.find? classifyCandidate).map
        (fun l => (extractJsonMessage l).getD l) := by
  induction ls with
  | nil => rfl
  | cons l rest ih =>
      simp only [classifyScan, List.find?, classifyCandidate]
      cases h : extractJsonMessage l with
      | some m => simp [h]
      | none =>
          cases hm : errorMarkerLine l <;>
            simp [h, hm, ih, classifyCandidate]

lemma collectLines_nil : collectLines [] = [] := rfl

/-- C4: for every pair of stdout and stderr texts, the failure-classification
message is exactly the spec's selection: non-blank stripped stderr lines then
stdout lines, scanned newest to oldest for the first line that yields a JSON
`error.message`/`message` or carries an error marker, falling back to the
last non-blank line and then to the fixed generic message. -/
theorem classify_failure_message_selection (stdoutText stderrText : List Char) :
    (classifyCodexFailure stdoutText stderrText).1 =
      classifySpecMessage stdoutText stderrText := by
  unfold classifyCodexFailure classifySpecMessage
  have hse : (if stderrText ≠ [] then collectLines stderrText else []) =
      collectLines stderrText := by
    by_cases h : stderrText = [] <;> simp [h, collectLines_nil]
  have hso : (if stdoutText ≠ [] then collectLines stdoutText else []) =
      collectLines stdoutText := by
    by_cases h : stdoutText = [] <;> simp [h, collectLines_nil]
  rw [hse, hso]
  simp only [classifyScan_eq_find]
  cases h : (collectLines stderrText ++ collectLines stdoutText).reverse.find?
      classifyCandidate <;> simp [h]

lemma seqStarts_append_self {α : Type} [DecidableEq α] (seg r : List α) :
    seqStarts seg (seg ++ r) = true := by
  induction seg with
  | nil => rfl
  | cons a seg ih => simp [seqStarts, ih]

lemma seqStarts_mono {α : Type} [DecidableEq α] (seg l r : List α)
    (h : seqStarts seg l = true) : seqStarts seg (l ++ r) = true := by
  induction seg generalizing l with
  | nil => rfl
  | cons a seg ih =>
      cases l with
      | nil => exact absurd h (by simp [seqStarts])
      | cons b l =>
          simp only [seqStarts, Bool.and_eq_true, decide_eq_true_eq] at h ⊢
          exact ⟨h.1, ih l h.2⟩

lemma seqHas_of_starts {α : Type} [DecidableEq α] (seg l : List α)
    (h : seqStarts seg l = true) : seqHas seg l = true := by
  cases l with
  | nil => exact h
  | cons b l => simp [seqHas, h]

lemma seqHas_append_left {α : Type} [DecidableEq α] (seg pre l : List α)
    (h : seqHas seg l = true) : seqHas seg (pre ++ l) = true := by
  induction pre with
  | nil => exact h
  | cons a pre ih => simp [seqHas, ih]

lemma seqHas_nil_seg {α : Type} [DecidableEq α] (l : List α) :
    seqHas ([] : List α) l = true := by
  cases l <;> simp [seqHas, seqStarts]

lemma seqHas_append_right {α : Type} [DecidableEq α] (seg l post : List α)
    (h : seqHas seg l = true) : seqHas seg (l ++ post) = true := by
  induction l with
  | nil =>
      cases seg with
      | nil => exact seqHas_nil_seg post
      | cons a seg => exact absurd h (by simp [seqHas, seqStarts])
  | cons b l ih =>
      simp only [seqHas, Bool.or_eq_true] at h
      rcases h with h | h
      · have := seqStarts_mono seg (b :: l) post h
        simp only [List.cons_append, seqHas]
        simp only [List.cons_append] at this
        simp [this]
      · simp [seqHas, ih h]

/-- The spec's rendering of one configuration entry: strings as
`key="value"`, booleans as lowercase `true`/`false`, numbers bare. -/
def renderEntrySpec (k : List Char) : PyVal → List Char
  | PyVal.str v => k ++ "=\"".data ++ v ++ "\"".data
  | PyVal.bool b => k ++ "=".data ++ (if b then "true".data else "false".data)
  | PyVal.int n => k ++ "=".data ++ (toString n).data

lemma renderEntrySpec_eq (k : List Char) (v : PyVal) :
    renderEntrySpec k v = renderConfigEntry k v := by
  cases v <;> simp [renderEntrySpec, renderConfigEntry, renderConfigValue,
    pyValBare]

lemma seqHas_cfgArgs (cfg : PyDict) (k : List Char) (v : PyVal)
    (hmem : (k, v) ∈ cfg) (hk : k ≠ "network_access".data) :
    seqHas ["--config".data, renderConfigEntry k v] (cfgArgs cfg) = true := by
  induction cfg with
  | nil => cases hmem
  | cons p rest ih =>
      rcases List.mem_cons.mp hmem with h | h
      · subst h
        simp only [cfgArgs, List.flatMap_cons, if_neg hk]
        exact seqHas_of_starts _ _ (seqStarts_append_self _ _)
      · simp only [cfgArgs, List.flatMap_cons]
        exact seqHas_append_left _ _ _ (ih h)

lemma ovGet_absent (ov : Option Overrides) (k : List Char)
    (h : ovKeyAbsent ov k = true) : ovGet ov k = none := by
  cases ov with
  | none => rfl
  | some l =>
      simp only [ovKeyAbsent, Bool.not_eq_true'] at h
      have hf : l.find? (fun p => decide (p.1 = k)) = none := by
        rw [List.find?_eq_none]
        intro p hp
        by_contra hc
        simp only [Bool.not_eq_false, decide_eq_true_eq] at hc
        have : l.any (fun p => decide (p.1 = k)) = true :=
          List.any_eq_true.mpr ⟨p, hp, by simp [hc]⟩
        rw [h] at this
        cases this
      simp [ovGet, hf]

instance : Inhabited PyVal := ⟨PyVal.bool false⟩

lemma dictGet_pop (d : PyDict) (k : List Char) :
    dictGet (dictPop d k) k = none := by
  induction d with
  | nil => rfl
  | cons p rest ih =>
      by_cases h : p.1 = k
      · simpa [dictPop, h] using ih
      · simpa [dictPop, dictGet, List.find?, h] using ih

lemma dictGet_none_of_not_hasKey (d : PyDict) (k : List Char)
    (h : dictHasKey d k = false) : dictGet d k = none := by
  induction d with
  | nil => rfl
  | cons p rest ih =>
      simp only [dictHasKey, List.any_cons, Bool.or_eq_false_iff] at h
      have h1 : ¬ p.1 = k := by
        intro hc; rw [hc] at h; simp at h
      have h2 : dictGet rest k = none := ih (by simpa [dictHasKey] using h.2)
      simpa [dictGet, List.find?, h1] using h2

lemma dictGet_condPop (cfg : PyDict) (a b : Bool) (k : List Char)
    (ha : a = true) (hb : b = true) :
    dictGet (if a && dictHasKey cfg k && b then dictPop cfg k else cfg) k =
      none := by
  subst ha; subst hb
  by_cases hkey : dictHasKey cfg k = true
  · simp [hkey, dictGet_pop]
  · have h0 : dictHasKey cfg k = false := by simpa using hkey
    simp [h0, dictGet_none_of_not_hasKey _ _ h0]

/-- C7: every string configuration entry is rendered as `--config key="v"`,
every boolean as lowercase `true`/`false`, every number bare (as a contiguous
`--config`/entry segment of the command line); and when the requested model
starts with `gpt-5` and no explicit reasoning-effort override is supplied,
the final configuration carries no `model_reasoning_effort` entry even if a
default effort is configured. -/
theorem build_cmd_rendering (s : BuildSettings) (prompt : List Char)
    (ov : Option Overrides) (images : List (List Char))
    (model : Option (List Char)) (exe : List Char) (skip : Bool) :
    (∀ k v, (k, v) ∈ buildCfgFinal s ov model →
      k ≠ "network_access".data →
      seqHas ["--config".data, renderEntrySpec k v]
        (buildCmd s prompt ov images model exe skip) = true) ∧
    (modelIsGpt5 model = true → ovKeyAbsent ov "reasoning_effort".data = true →
      dictGet (buildCfgFinal s ov model) "model_reasoning_effort".data =
        none) := by
  constructor
  · intro k v hmem hk
    rw [renderEntrySpec_eq]
    have hcfg := seqHas_cfgArgs (buildCfgFinal s ov model) k v hmem hk
    unfold buildCmd
    simp only [List.append_assoc]
    split_ifs <;>
      exact seqHas_append_left _ _ _ (seqHas_append_left _ _ _
        (seqHas_append_left _ _ _ (seqHas_append_right _ _ _ hcfg)))
  · intro hm hov
    have htr : pyTruthyOpt (ovGet ov "reasoning_effort".data) = false := by
      rw [ovGet_absent ov _ hov]; rfl
    unfold buildCfgFinal
    exact dictGet_condPop _ _ _ _ hm (by simp [htr])

def c7Settings : BuildSettings :=
  ⟨"workspace-write".data, false, some "medium".data, true⟩

def c7Overrides : Option Overrides :=
  some [("network_access".data, some (PyVal.bool true))]

/-- C7 witness: with a configured default effort, a `gpt-5` model, and no
reasoning-effort override, the command renders the string-valued sandbox
entry quoted and carries no `model_reasoning_effort` entry. -/
theorem build_cmd_rendering_witness :
    ("sandbox_mode".data, PyVal.str "workspace-write".data) ∈
      buildCfgFinal c7Settings c7Overrides (some "gpt-5".data) ∧
    seqHas ["--config".data,
        renderEntrySpec "sandbox_mode".data
          (PyVal.str "workspace-write".data)]
      (buildCmd c7Settings "p".data c7Overrides [] (some "gpt-5".data)
        "codex".data true) = true ∧
    dictGet (buildCfgFinal c7Settings c7Overrides (some "gpt-5".data))
      "model_reasoning_effort".data = none := by
  refine ⟨by decide, ?_, ?_⟩
  · exact (build_cmd_rendering c7Settings "p".data c7Overrides []
      (some "gpt-5".data) "codex".data true).1 _ _ (by decide) (by decide)
  · exact (build_cmd_rendering c7Settings "p".data c7Overrides []
      (some "gpt-5".data) "codex".data true).2 (by decide) (by decide)

lemma resolveLoop_first (probe : List Char → Option (List Char))
    (cs : List (List Char)) :
    (resolveLoop probe cs).1 = cs.find? (fun c => (probe c).isNone) := by
  induction cs with
  | nil => rfl
  | cons c rest ih =>
      simp only [resolveLoop, List.find?]
      cases h : probe c with
      | some err => simp [h, ih]
      | none => simp [h]

lemma resolveLoop_errors_of_none (probe : List Char → Option (List Char))
    (cs : List (List Char)) (h : (resolveLoop probe cs).1 = none) :
    (resolveLoop probe cs).2.1 =
      cs.map (fun c => (c, (probe c).getD [])) := by
  induction cs with
  | nil => rfl
  | cons c rest ih =>
      cases hp : probe c with
      | none => simp [resolveLoop, hp] at h
      | some err =>
          simp only [resolveLoop, hp] at h ⊢
          simp [ih h, hp]

/-- The spec's description of working-directory resolution: candidates in
priority order (configured path, then the temp-directory subfolder, then the
user-cache subfolder); the first candidate whose create-and-write-probe
succeeds is selected and persisted into the shared configuration; if every
candidate fails, a `DirectoryPreparationFailure` whose message aggregates
each candidate's error. -/
def specWorkdirResolution (env : FsEnv) (st : WorkdirState) :
    Except (List Char) WorkdirState :=
  let candidates := workdirCandidates env st
  match candidates.find? (fun c => (env.probe c).isNone) with
  | some c =>
      let resolved := (env.resolvePath c).getD c
      Except.ok
        { workdirPath := some resolved,
          needsSkipGitCheck := !env.isGitRepo resolved,
          settingsWorkdir := resolved }
  | none =>
      Except.error ("Failed to prepare Codex work directory (".data ++
        joinErrors (candidates.map (fun c => (c, (env.probe c).getD []))) ++
        ")".data)

/-- C6: on a not-yet-resolved state, `_ensure_workdir_exists` behaves exactly
as the spec describes — ordered candidates, create-and-probe each, first
success selected and persisted (with the git-marker flag recorded), all
per-candidate errors aggregated into the failure otherwise. -/
theorem workdir_resolution (env : FsEnv) (st : WorkdirState)
    (h : st.workdirPath = none) :
    (ensureWorkdirExists env st).1 = specWorkdirResolution env st := by
  unfold ensureWorkdirExists specWorkdirResolution
  rw [h]
  have hfind := resolveLoop_first env.probe (workdirCandidates env st)
  cases hres : (resolveLoop env.probe (workdirCandidates env st)).1 with
  | none =>
      rw [hres] at hfind
      simp only [hres, ← hfind, Option.isSome_none, Bool.false_eq_true,
        if_false]
      rw [resolveLoop_errors_of_none _ _ hres]
  | some c =>
      rw [hres] at hfind
      simp [hres, ← hfind]

def c6Env : FsEnv :=
  { expanduser := fun p => p,
    resolvePath := fun p => some p,
    gettempdir := "/tmp".data,
    homeDir := "/home/u".data,
    probe := fun p => if p = "/w".data then some "denied".data else none,
    isGitRepo := fun _ => false }

def c6State : WorkdirState := ⟨none, false, "/w".data⟩

/-- C6 witness: with an unwritable configured path, the temp-directory
fallback is selected, persisted and flagged. -/
theorem workdir_resolution_witness :
    c6State.workdirPath = none ∧
    (ensureWorkdirExists c6Env c6State).1 =
      specWorkdirResolution c6Env c6State ∧
    (ensureWorkdirExists c6Env c6State).1 =
      Except.ok ⟨some "/tmp/codex-workdir".data, true,
        "/tmp/codex-workdir".data⟩ :=
  ⟨rfl, workdir_resolution c6Env c6State rfl, by decide⟩

def c2Env : FsEnv :=
  { expanduser := fun p => p,
    resolvePath := fun p => some p,
    gettempdir := "/tmp".data,
    homeDir := "/home/u".data,
    probe := fun _ => none,
    isGitRepo := fun _ => false }

def c2State0 : HomeState := ⟨none, none, "/w".data⟩

def c2State1 : HomeState :=
  (((resolveCodexHomeDir c2Env c2State0).1.toOption).map Prod.snd).getD
    c2State0

/-- C2 counterexample: the configuration-home resolver holds no cache — after
a first successful resolution (which probed `/w/.codex`), the very next call
runs the mkdir/write-probe again on the (already persisted) resolved
directory. -/
theorem home_dir_reprobe_counterexample :
    ((resolveCodexHomeDir c2Env c2State0).1.toOption).isSome = true ∧
    (resolveCodexHomeDir c2Env c2State0).2 = ["/w/.codex".data] ∧
    c2State1.settingsConfigDir = some "/w/.codex".data ∧
    (resolveCodexHomeDir c2Env c2State1).2 = ["/w/.codex".data] := by
  decide

lemma addCandidate_ne_nil (cs : List (List Char)) (c : List Char) :
    addCandidate cs c ≠ [] := by
  unfold addCandidate
  split
  · rename_i hc
    cases cs with
    | nil => simp at hc
    | cons a l => simp
  · simp

lemma resolveLoop_trace_ne_nil (probe : List Char → Option (List Char))
    (cs : List (List Char)) (h : cs ≠ []) :
    (resolveLoop probe cs).2.2 ≠ [] := by
  cases cs with
  | nil => exact absurd rfl h
  | cons c rest => cases hp : probe c <;> simp [resolveLoop, hp]

/-- C2 amended: the working directory alone is resolved at most once per
process — once `_WORKDIR_PATH` holds a value, a call performs no directory
probing and leaves every piece of state unchanged; the configuration-home
directory is not cached: every call to the home resolver runs at least one
mkdir/write-probe, whatever the state (only the resolved path is persisted
into the configuration and environment between calls). -/
theorem workdir_cached_home_reprobes (env : FsEnv) (st : WorkdirState)
    (p : List Char) (h : st.workdirPath = some p) :
    ensureWorkdirExists env st = (Except.ok st, []) ∧
    ∀ (henv : FsEnv) (hst : HomeState),
      (resolveCodexHomeDir henv hst).2 ≠ [] := by
  constructor
  · unfold ensureWorkdirExists
    rw [h]
    rfl
  · intro henv hst
    have hne : homeCandidates henv hst ≠ [] := by
      unfold homeCandidates
      exact addCandidate_ne_nil _ _
    unfold resolveCodexHomeDir
    have htr := resolveLoop_trace_ne_nil henv.probe _ hne
    cases hres : (resolveLoop henv.probe (homeCandidates henv hst)).1 <;>
      simpa [hres] using htr

/-- C2 amended witness: a state with a cached workdir path is returned
untouched with no probes, while a home resolution from a fresh state still
probes. -/
theorem workdir_cached_home_reprobes_witness :
    ensureWorkdirExists c2Env ⟨some "/w".data, true, "/w".data⟩ =
      (Except.ok ⟨some "/w".data, true, "/w".data⟩, []) ∧
    (resolveCodexHomeDir c2Env c2State0).2 ≠ [] :=
  ⟨(workdir_cached_home_reprobes c2Env ⟨some "/w".data, true, "/w".data⟩
      "/w".data rfl).1,
    (workdir_cached_home_reprobes c2Env ⟨some "/w".data, true, "/w".data⟩
      "/w".data rfl).2 c2Env c2State0⟩

/-- C8: when a positive queue timeout is configured, every acquisition
attempt that finds no free slot and sees none freed within the wait window
fails with the queue-busy `CodexError` carrying status 503, and the
semaphore's permit count is unchanged (the failed attempt consumes no
slot). -/
theorem limiter_queue_timeout (st : LimiterState)
    (hq : 0 < st.queueTimeoutSeconds) (hfull : st.available = 0) :
    slotAcquire st false = (SlotOutcome.busy queueBusyError, st) ∧
    queueBusyError.statusCode = some 503 := by
  constructor
  · unfold slotAcquire
    rw [hfull]
    simp [hq]
  · rfl

def c8State : LimiterState :=
  (slotAcquire (slotAcquire (limiterConfigure 2 5) false).2 false).2

/-- C8 witness: a limiter configured for two slots and a five-second queue
timeout, with both slots held, rejects the next attempt with status 503 and
leaves the count unchanged. -/
theorem limiter_queue_timeout_witness :
    0 < c8State.queueTimeoutSeconds ∧ c8State.available = 0 ∧
    slotAcquire c8State false = (SlotOutcome.busy queueBusyError, c8State) ∧
    queueBusyError.statusCode = some 503 :=
  ⟨by norm_num [c8State, slotAcquire, limiterConfigure],
    by norm_num [c8State, slotAcquire, limiterConfigure],
    (limiter_queue_timeout c8State
      (by norm_num [c8State, slotAcquire, limiterConfigure])
      (by norm_num [c8State, slotAcquire, limiterConfigure])).1,
    (limiter_queue_timeout c8State
      (by norm_num [c8State, slotAcquire, limiterConfigure])
      (by norm_num [c8State, slotAcquire, limiterConfigure])).2⟩

lemma streamTimeoutResult_spec (sc : StreamScript) (T : ℚ)
    (yielded : List (List Char)) (h : T < sc.exitTime) :
    (streamTimeoutResult sc T yielded).result = Except.error RunErr.timeout ∧
    (streamTimeoutResult sc T yielded).killed = true ∧
    (streamTimeoutResult sc T yielded).awaited = true := by
  refine ⟨rfl, ?_, ?_⟩ <;>
    simp [streamTimeoutResult, decide_eq_true_eq, h]

lemma streamAfterLoop_timeout (t : ℚ) (sc : StreamScript) (now : ℚ)
    (yielded raws : List (List Char)) (ht : 0 < t) (hnow : now ≤ t)
    (hexit : t < sc.exitTime) :
    (streamAfterLoop t sc now yielded raws).result =
      Except.error RunErr.timeout ∧
    (streamAfterLoop t sc now yielded raws).killed = true ∧
    (streamAfterLoop t sc now yielded raws).awaited = true := by
  unfold streamAfterLoop
  rw [if_neg (not_le.mpr ht)]
  by_cases h2 : t - now ≤ 0
  · rw [if_pos h2]
    exact streamTimeoutResult_spec sc now yielded (lt_of_le_of_lt hnow hexit)
  · rw [if_neg h2, if_pos hexit]
    exact streamTimeoutResult_spec sc t yielded hexit

lemma streamGo_timeout (t : ℚ) (sc : StreamScript) (ht : 0 < t)
    (hexit : t < sc.exitTime) (evts : List (ℚ × List Char)) :
    ∀ (now : ℚ) (fs : FilterState) (yielded raws : List (List Char)),
      now ≤ t →
      (streamGo t sc now fs yielded raws evts).result =
        Except.error RunErr.timeout ∧
      (streamGo t sc now fs yielded raws evts).killed = true ∧
      (streamGo t sc now fs yielded raws evts).awaited = true := by
  induction evts with
  | nil =>
      intro now fs yielded raws hnow
      simp only [streamGo]
      rw [if_neg (not_le.mpr ht)]
      by_cases h2 : t - now ≤ 0
      · rw [if_pos h2]
        exact streamTimeoutResult_spec sc now yielded
          (lt_of_le_of_lt hnow hexit)
      · rw [if_neg h2]
        by_cases h3 : t < sc.eofTime
        · rw [if_pos h3]
          exact streamTimeoutResult_spec sc t yielded hexit
        · rw [if_neg h3]
          exact streamAfterLoop_timeout t sc sc.eofTime yielded raws ht
            (le_of_not_lt h3) hexit
  | cons e rest ih =>
      obtain ⟨tm, s⟩ := e
      intro now fs yielded raws hnow
      simp only [streamGo]
      rw [if_neg (not_le.mpr ht)]
      by_cases h2 : t - now ≤ 0
      · rw [if_pos h2]
        exact streamTimeoutResult_spec sc now yielded
          (lt_of_le_of_lt hnow hexit)
      · rw [if_neg h2]
        by_cases h3 : t < tm
        · rw [if_pos h3]
          exact streamTimeoutResult_spec sc t yielded hexit
        · rw [if_neg h3]
          exact ih tm _ _ _ (le_of_not_lt h3)

/-- C1: with a positive configured timeout, every execution whose subprocess
outlives the deadline — in streaming mode for any pattern of line/EOF event
times (so whether the budget runs out on a line read, on the EOF read, or on
the final process wait), and in batch mode — ends with the subprocess killed
and awaited and the run failing with the timeout error, whose `CodexError`
classification is the fixed message with status 504. -/
theorem execution_timeout_kill (t : ℚ) (sc : StreamScript) (bs : BatchScript)
    (ht : 0 < t) (hstream : t < sc.exitTime)
    (hbatch : t < bs.exitTime) (hcomm : bs.exitTime ≤ bs.commTime) :
    ((runCodexStream t sc).result = Except.error RunErr.timeout ∧
      (runCodexStream t sc).killed = true ∧
      (runCodexStream t sc).awaited = true) ∧
    ((runCodexLastMessage t bs).result = Except.error RunErr.timeout ∧
      (runCodexLastMessage t bs).killed = true ∧
      (runCodexLastMessage t bs).awaited = true) ∧
    runErrToCodexErr RunErr.timeout =
      ⟨"codex execution timed out".data, some 504⟩ := by
  refine ⟨?_, ?_, rfl⟩
  · exact streamGo_timeout t sc ht hstream sc.lines 0 filterInit [] []
      (le_of_lt ht)
  · unfold runCodexLastMessage
    have hmax : max t 0 = t := max_eq_left (le_of_lt ht)
    rw [hmax]
    have hc : t < bs.commTime := lt_of_lt_of_le hbatch hcomm
    rw [if_pos hc]
    refine ⟨rfl, ?_, ?_⟩ <;> simp [decide_eq_true_eq, hbatch]

def c1Stream : StreamScript :=
  { lines := [(1, "hello\n".data)], eofTime := 9, exitTime := 9,
    exitCode := 0, stderrText := [] }

def c1Batch : BatchScript :=
  { commTime := 9, exitTime := 9, exitCode := 0, stdoutData := [],
    stderrData := [], lastMessageFile := none }

/-- C1 witness: with a 3-second timeout and a process living to 9 seconds,
both modes kill, await and fail with the 504 timeout error. -/
theorem execution_timeout_kill_witness :
    (0 : ℚ) < 3 ∧ (3 : ℚ) < c1Stream.exitTime ∧
    (runCodexStream 3 c1Stream).result = Except.error RunErr.timeout ∧
    (runCodexStream 3 c1Stream).killed = true ∧
    (runCodexLastMessage 3 c1Batch).result = Except.error RunErr.timeout ∧
    (runCodexLastMessage 3 c1Batch).killed = true ∧
    runErrToCodexErr RunErr.timeout =
      ⟨"codex execution timed out".data, some 504⟩ := by
  have h := execution_timeout_kill 3 c1Stream c1Batch (by norm_num)
    (by norm_num [c1Stream]) (by norm_num [c1Batch]) (by norm_num [c1Batch])
  exact ⟨by norm_num, by norm_num [c1Stream], h.1.1, h.1.2.1, h.2.1.1,
    h.2.1.2.1, h.2.2⟩

lemma streamWaitDone_eq (sc sc' : StreamScript)
    (hc : sc.exitCode = sc'.exitCode) (hs : sc.stderrText = sc'.stderrText)
    (yielded raws : List (List Char)) :
    streamWaitDone sc yielded raws = streamWaitDone sc' yielded raws := by
  unfold streamWaitDone
  rw [hc, hs]

lemma streamGo_noDeadline_eq (t : ℚ) (ht : t ≤ 0) (sc sc' : StreamScript)
    (hc : sc.exitCode = sc'.exitCode) (hs : sc.stderrText = sc'.stderrText)
    (evts evts' : List (ℚ × List Char))
    (hl : evts.map Prod.snd = evts'.map Prod.snd) :
    ∀ (now now' : ℚ) (fs : FilterState) (yielded raws : List (List Char)),
      streamGo t sc now fs yielded raws evts =
        streamGo t sc' now' fs yielded raws evts' := by
  induction evts generalizing evts' with
  | nil =>
      cases evts' with
      | nil =>
          intro now now' fs yielded raws
          simp only [streamGo, if_pos ht]
          unfold streamAfterLoop
          rw [if_pos ht, if_pos ht]
          exact streamWaitDone_eq sc sc' hc hs yielded raws
      | cons e' rest' => simp at hl
  | cons e rest ih =>
      cases evts' with
      | nil => simp at hl
      | cons e' rest' =>
          obtain ⟨tm, s⟩ := e
          obtain ⟨tm', s'⟩ := e'
          simp only [List.map_cons, List.cons.injEq] at hl
          intro now now' fs yielded raws
          simp only [streamGo, if_pos ht]
          rw [hl.1]
          exact ih rest' hl.2 tm tm' _ _ _

lemma streamGo_noDeadline_no_timeout (t : ℚ) (ht : t ≤ 0)
    (sc : StreamScript) (evts : List (ℚ × List Char)) :
    ∀ (now : ℚ) (fs : FilterState) (yielded raws : List (List Char)),
      (streamGo t sc now fs yielded raws evts).result ≠
        Except.error RunErr.timeout := by
  induction evts with
  | nil =>
      intro now fs yielded raws
      simp only [streamGo, if_pos ht]
      unfold streamAfterLoop
      rw [if_pos ht]
      unfold streamWaitDone
      split_ifs <;> simp
  | cons e rest ih =>
      obtain ⟨tm, s⟩ := e
      intro now fs yielded raws
      simp only [streamGo, if_pos ht]
      exact ih tm _ _ _

/-- C10: in streaming mode a non-positive configured timeout disables the
deadline entirely — the run never fails with the timeout error, and its
entire outcome is independent of when lines arrive, when the stream ends and
when the process exits (it waits without bound at every read and at the
final wait). -/
theorem run_codex_no_deadline (t : ℚ) (sc sc' : StreamScript) (ht : t ≤ 0)
    (hl : sc.lines.map Prod.snd = sc'.lines.map Prod.snd)
    (hc : sc.exitCode = sc'.exitCode) (hs : sc.stderrText = sc'.stderrText) :
    runCodexStream t sc = runCodexStream t sc' ∧
    (runCodexStream t sc).result ≠ Except.error RunErr.timeout := by
  constructor
  · exact streamGo_noDeadline_eq t ht sc sc' hc hs sc.lines sc'.lines hl
      0 0 filterInit [] []
  · exact streamGo_noDeadline_no_timeout t ht sc sc.lines 0 filterInit [] []

def c10Slow : StreamScript :=
  { lines := [(5000, "hello\n".data)], eofTime := 7000, exitTime := 9000,
    exitCode := 0, stderrText := [] }

def c10Fast : StreamScript :=
  { lines := [(1, "hello\n".data)], eofTime := 2, exitTime := 3,
    exitCode := 0, stderrText := [] }

/-- C10 witness: with timeout 0, a run whose process needs 9000 seconds gives
the same outcome as one finishing in 3, and never the timeout error. -/
theorem run_codex_no_deadline_witness :
    (0 : ℚ) ≤ 0 ∧
    runCodexStream 0 c10Slow = runCodexStream 0 c10Fast ∧
    (runCodexStream 0 c10Slow).result ≠ Except.error RunErr.timeout :=
  ⟨le_refl 0,
    (run_codex_no_deadline 0 c10Slow c10Fast (le_refl 0) (by decide) rfl
      rfl).1,
    (run_codex_no_deadline 0 c10Slow c10Fast (le_refl 0) (by decide) rfl
      rfl).2⟩

end CodexProxy
